import Mathlib

/-!
Verification development for the halo2 circuit arithmetization and
proof-generation pipeline.  Rust sources are shallowly embedded:

* `src/plonk/circuit.rs` — columns, `Assigned` deferred fractions,
  `Expression` ASTs, `ConstraintSystem` (query interning, gates, degree);
* `src/plonk/lookup/verifier.rs` — the lookup argument's verifier identities;
* `src/plonk/prover.rs` — the transcript choreography of `create_proof`,
  modelled as an event trace;
* `src/circuit/floor_planner/v1.rs` — the V1 floor planner's assignment pass.

Machine integers (`usize`) are modelled as `Nat`; slice indexing that can
panic is modelled with `Option`; field elements are a Mathlib `Field`.
-/

namespace Halo2

/-- `Any` — the enum over the `Advice`, `Fixed`, `Instance` column types
(`src/plonk/circuit.rs`). -/
inductive Any : Type
  | Advice
  | Fixed
  | Instance
deriving DecidableEq, Repr

/-- `Column<Any>`: a column with an index and type (`src/plonk/circuit.rs`).
The Rust struct is generic over the column type `C: Into<Any>`; the `Ord`
implementation compares through the conversion to `Any`, so `Column Any`
captures the ordering behaviour of every instantiation. -/
structure Column : Type where
  index : Nat
  column_type : Any
deriving DecidableEq, Repr

/-- `impl Ord for Column` (`src/plonk/circuit.rs` lines 41-59): indices are
compared within a column type; across column types, Advice < Instance < Fixed. -/
def Column.cmp (a b : Column) : Ordering :=
  match a.column_type, b.column_type with
  | Any.Advice, Any.Advice => compare a.index b.index
  | Any.Instance, Any.Instance => compare a.index b.index
  | Any.Fixed, Any.Fixed => compare a.index b.index
  | Any.Advice, Any.Instance => Ordering.lt
  | Any.Advice, Any.Fixed => Ordering.lt
  | Any.Instance, Any.Fixed => Ordering.lt
  | Any.Fixed, Any.Instance => Ordering.gt
  | Any.Fixed, Any.Advice => Ordering.gt
  | Any.Instance, Any.Advice => Ordering.gt

/-- `Rotation`: a signed row offset relative to a query point
(`src/poly.rs`, used as an opaque ordered key here). -/
abbrev Rotation : Type := Int

/-- A `Selector` wraps a fixed column (`pub struct Selector(Column<Fixed>)`);
a typed `Column<Fixed>` is just its index, so a selector is its backing
fixed-column index. -/
abbrev Selector : Type := Nat

/-- `Assigned<F>`: a value assigned to a cell, stored as a deferred fraction
(`src/plonk/circuit.rs` lines 266-279). -/
inductive Assigned (F : Type) : Type
  | Zero
  | Trivial (x : F)
  | Rational (numerator denominator : F)
deriving DecidableEq, Repr

namespace Assigned

variable {F : Type} [Field F] [DecidableEq F]

/-- `impl Neg for Assigned` (`src/plonk/circuit.rs` lines 293-302). -/
def neg : Assigned F → Assigned F
  | .Zero => .Zero
  | .Trivial n => .Trivial (-n)
  | .Rational n d => .Rational (-n) d

/-- `impl Add for Assigned` (`src/plonk/circuit.rs` lines 304-324). -/
def add : Assigned F → Assigned F → Assigned F
  | .Zero, rhs => rhs
  | lhs, .Zero => lhs
  | .Trivial lhs, .Trivial rhs => .Trivial (lhs + rhs)
  | .Rational n d, .Trivial other => .Rational (n + d * other) d
  | .Trivial other, .Rational n d => .Rational (n + d * other) d
  | .Rational ln ld, .Rational rn rd => .Rational (ln * rd + ld * rn) (ld * rd)

/-- `impl Sub for Assigned`: `self + (-rhs)` (`src/plonk/circuit.rs` line 336). -/
def sub (a b : Assigned F) : Assigned F := a.add b.neg

/-- `impl Mul for Assigned` (`src/plonk/circuit.rs` lines 347-366). -/
def mul : Assigned F → Assigned F → Assigned F
  | .Zero, _ => .Zero
  | _, .Zero => .Zero
  | .Trivial lhs, .Trivial rhs => .Trivial (lhs * rhs)
  | .Rational n d, .Trivial other => .Rational (n * other) d
  | .Trivial other, .Rational n d => .Rational (n * other) d
  | .Rational ln ld, .Rational rn rd => .Rational (ln * rn) (ld * rd)

/-- `Assigned::invert` (`src/plonk/circuit.rs` lines 395-401): swaps numerator
and denominator; performs no field inversion. -/
def invert : Assigned F → Assigned F
  | .Zero => .Zero
  | .Trivial x => .Rational 1 x
  | .Rational n d => .Rational d n

/-- `Assigned::evaluate` (`src/plonk/circuit.rs` lines 407-419).  The Rust
code computes `numerator * denominator.invert().unwrap_or(zero)`, where the
field's `invert` fails exactly on zero; a zero denominator therefore
evaluates to zero. -/
def evaluate : Assigned F → F
  | .Zero => 0
  | .Trivial x => x
  | .Rational n d => if d = 1 then n else n * (if d = 0 then 0 else d⁻¹)

end Assigned

/-- `Expression<F>`: low-degree expression AST (`src/plonk/circuit.rs`
lines 556-573). Column variants carry a query index. -/
inductive Expression (F : Type) : Type
  | Constant (scalar : F)
  | Fixed (index : Nat)
  | Advice (index : Nat)
  | Instance (index : Nat)
  | Sum (a b : Expression F)
  | Product (a b : Expression F)
  | Scaled (a : Expression F) (scalar : F)
deriving DecidableEq, Repr

namespace Expression

variable {F T : Type}

/-- `Expression::evaluate` (`src/plonk/circuit.rs` lines 575-648): a
structural fold interpreting the AST through the supplied closures. -/
def evaluate (constant : F → T) (fixed_column advice_column instance_column : Nat → T)
    (sum product : T → T → T) (scaled : T → F → T) : Expression F → T
  | .Constant scalar => constant scalar
  | .Fixed index => fixed_column index
  | .Advice index => advice_column index
  | .Instance index => instance_column index
  | .Sum a b =>
      sum (a.evaluate constant fixed_column advice_column instance_column sum product scaled)
        (b.evaluate constant fixed_column advice_column instance_column sum product scaled)
  | .Product a b =>
      product (a.evaluate constant fixed_column advice_column instance_column sum product scaled)
        (b.evaluate constant fixed_column advice_column instance_column sum product scaled)
  | .Scaled a f =>
      scaled (a.evaluate constant fixed_column advice_column instance_column sum product scaled) f

/-- `Expression::degree` (`src/plonk/circuit.rs` lines 651-661). -/
def degree : Expression F → Nat
  | .Constant _ => 0
  | .Fixed _ => 1
  | .Advice _ => 1
  | .Instance _ => 1
  | .Sum a b => max a.degree b.degree
  | .Product a b => a.degree + b.degree
  | .Scaled a _ => a.degree

/-- Field evaluation of an expression against evaluation environments, the
instantiation of `evaluate` used by the lookup verifier
(`src/plonk/lookup/verifier.rs` lines 131-139): constants stand for
themselves, column queries look up the supplied evaluations, and
sum/product/scaled are the field operations. -/
def evalF [Field F] (fixed_evals advice_evals instance_evals : Nat → F)
    (e : Expression F) : F :=
  e.evaluate (fun scalar => scalar) fixed_evals advice_evals instance_evals
    (fun a b => a + b) (fun a b => a * b) (fun a scalar => a * scalar)

end Expression

namespace Lookup

/-- `lookup::Argument<F>`. Modelled from the spec: the struct lives in
`src/plonk/lookup/mod.rs`, which is not part of the sampled sources; the spec
describes it as a list of matched input/table expressions — "Lookup Argument:
input_expressions[], table_expressions[]" — and the verifier
(`src/plonk/lookup/verifier.rs`) accesses exactly these two fields. -/
structure Argument (F : Type) : Type where
  input_expressions : List (Expression F)
  table_expressions : List (Expression F)

/-- The scalar evaluations carried by `lookup::verifier::Evaluated`
(`src/plonk/lookup/verifier.rs` lines 25-32); the commitment fields are
curve points never used by `expressions` and are omitted. -/
structure Evaluated (F : Type) : Type where
  product_eval : F
  product_inv_eval : F
  permuted_input_eval : F
  permuted_input_inv_eval : F
  permuted_table_eval : F

variable {F : Type} [Field F]

/-- `Evaluated::expressions` (`src/plonk/lookup/verifier.rs` lines 109-169).
The challenge wrappers `ChallengeTheta`/`ChallengeBeta`/`ChallengeGamma` are
plain scalars here; the three `*_evals` slices are evaluation environments.
The iterator chain is a four-element list. -/
def Evaluated.expressions (e : Evaluated F) (l_0 : F) (argument : Argument F)
    (theta beta gamma : F) (advice_evals fixed_evals instance_evals : Nat → F) :
    List F :=
  let compress_expressions := fun (expressions : List (Expression F)) =>
    (expressions.map (fun expression =>
        expression.evaluate (fun scalar => scalar) fixed_evals advice_evals instance_evals
          (fun a b => a + b) (fun a b => a * b) (fun a scalar => a * scalar))).foldl
      (fun acc eval => acc * theta + eval) 0
  let product_expression :=
    e.product_eval * (e.permuted_input_eval + beta) * (e.permuted_table_eval + gamma)
      - e.product_inv_eval * (compress_expressions argument.input_expressions + beta)
        * (compress_expressions argument.table_expressions + gamma)
  [l_0 * (1 - e.product_eval),
   product_expression,
   l_0 * (e.permuted_input_eval - e.permuted_table_eval),
   (e.permuted_input_eval - e.permuted_table_eval)
     * (e.permuted_input_eval - e.permuted_input_inv_eval)]

end Lookup

/-- `VirtualCell` (`src/plonk/circuit.rs` lines 711-715): a column queried at
a relative rotation within a custom gate. -/
structure VirtualCell : Type where
  column : Column
  rotation : Rotation
deriving DecidableEq, Repr

/-- `Constraint<F>` (`src/plonk/circuit.rs` lines 729-733): a named
polynomial constraint returned by a `create_gate` closure (the Rust name is
a `&'static str`, modelled as `String`). -/
structure GateConstraint (F : Type) : Type where
  name : String
  poly : Expression F

/-- `Gate<F>` (`src/plonk/circuit.rs` lines 753-762). -/
structure Gate (F : Type) : Type where
  name : String
  constraint_names : List String
  polys : List (Expression F)
  queried_selectors : List Selector
  queried_cells : List VirtualCell

/-- `permutation::Argument`. Modelled from the spec: the struct lives in
`src/plonk/permutation/mod.rs`, absent from the sampled sources; the spec
describes it as an "ordered column list" ("Permutation Argument: ordered
column list whose required degree depends on chunking strategy used at
proving time (external collaborator detail)"). -/
structure PermutationArgument : Type where
  columns : List Column

/-- `ConstraintSystem<F>` (`src/plonk/circuit.rs` lines 788-805).  A typed
`Column<Advice>` / `Column<Fixed>` / `Column<Instance>` is a bare index, so
the query tables are keyed by `(index, rotation)`. -/
structure ConstraintSystem (F : Type) : Type where
  num_fixed_columns : Nat
  num_advice_columns : Nat
  num_instance_columns : Nat
  gates : List (Gate F)
  advice_queries : List (Nat × Rotation)
  instance_queries : List (Nat × Rotation)
  fixed_queries : List (Nat × Rotation)
  permutations : List PermutationArgument
  lookups : List (Lookup.Argument F)

namespace ConstraintSystem

variable {F : Type}

/-- `impl Default for ConstraintSystem` (`src/plonk/circuit.rs` lines 831-845). -/
def default : ConstraintSystem F where
  num_fixed_columns := 0
  num_advice_columns := 0
  num_instance_columns := 0
  gates := []
  advice_queries := []
  instance_queries := []
  fixed_queries := []
  permutations := []
  lookups := []

/-- The shared body of `query_fixed_index` / `query_advice_index` /
`query_instance_index` (`src/plonk/circuit.rs` lines 899-942): scan the
query table for an existing `(column, rotation)` entry and return its index,
else append the pair at the end and return its (new) index.  The three Rust
functions are textually identical up to which table they touch. -/
def queryIndexAux {α : Type} [DecidableEq α] : List α → α → Nat × List α
  | [], q => (0, [q])
  | entry :: rest, q =>
    if entry = q then (0, entry :: rest)
    else
      let r := queryIndexAux rest q
      (r.1 + 1, entry :: r.2)

/-- `ConstraintSystem::query_fixed_index` (`src/plonk/circuit.rs` lines 899-912). -/
def query_fixed_index (cs : ConstraintSystem F) (column : Nat) (at_ : Rotation) :
    Nat × ConstraintSystem F :=
  let r := queryIndexAux cs.fixed_queries (column, at_)
  (r.1, { cs with fixed_queries := r.2 })

/-- `ConstraintSystem::query_advice_index` (`src/plonk/circuit.rs` lines 914-927). -/
def query_advice_index (cs : ConstraintSystem F) (column : Nat) (at_ : Rotation) :
    Nat × ConstraintSystem F :=
  let r := queryIndexAux cs.advice_queries (column, at_)
  (r.1, { cs with advice_queries := r.2 })

/-- `ConstraintSystem::query_instance_index` (`src/plonk/circuit.rs` lines 929-942). -/
def query_instance_index (cs : ConstraintSystem F) (column : Nat) (at_ : Rotation) :
    Nat × ConstraintSystem F :=
  let r := queryIndexAux cs.instance_queries (column, at_)
  (r.1, { cs with instance_queries := r.2 })

/-- The recording state of `VirtualCells` (`src/plonk/circuit.rs`
lines 1111-1125), fresh (empty) at the start of each `create_gate` call. -/
structure VirtualCellsState : Type where
  queried_selectors : List Selector
  queried_cells : List VirtualCell

/-- `ConstraintSystem::create_gate` (`src/plonk/circuit.rs` lines 1004-1032).
The `constraints` closure receives the fresh `VirtualCells` context (the
constraint system plus empty recording lists) and returns the mutated
context together with the collected constraints; the Rust `assert!` that
fires on an empty constraint list is modelled by returning `none`. -/
def create_gate (cs : ConstraintSystem F) (name : String)
    (constraints : ConstraintSystem F × VirtualCellsState →
      (ConstraintSystem F × VirtualCellsState) × List (GateConstraint F)) :
    Option (ConstraintSystem F) :=
  let r := constraints (cs, ⟨[], []⟩)
  let meta := r.1.1
  let cells := r.1.2
  let constraint_names := r.2.map (fun c => c.name)
  let polys := r.2.map (fun c => c.poly)
  if polys.isEmpty then
    none
  else
    some { meta with
      gates := meta.gates ++
        [{ name := name
           constraint_names := constraint_names
           polys := polys
           queried_selectors := cells.queried_selectors
           queried_cells := cells.queried_cells }] }

/-- `ConstraintSystem::degree` (`src/plonk/circuit.rs` lines 1073-1106).
`Argument::required_degree` for permutation and lookup arguments lives in
source files outside the sample; the two methods are therefore taken as
parameters. `.max().unwrap_or(d)` is `(List.max?).getD d`. -/
def degree (cs : ConstraintSystem F) (permRequiredDegree : PermutationArgument → Nat)
    (lookupRequiredDegree : Lookup.Argument F → Nat) : Nat :=
  let degree1 := ((cs.permutations.map permRequiredDegree).max?).getD 1
  let degree2 := max degree1 (((cs.lookups.map lookupRequiredDegree).max?).getD 1)
  max degree2
    (((cs.gates.flatMap (fun gate => gate.polys.map (fun poly => poly.degree))).max?).getD 0)

end ConstraintSystem

namespace Prover

/-- The challenges squeezed by `create_proof` (`src/plonk/prover.rs`). -/
inductive Chal : Type
  | theta
  | beta
  | gamma
  | y
  | x
deriving DecidableEq, Repr

/-- The code site that emits a transcript write, used to label events in the
trace model of `create_proof`. -/
inductive Site : Type
  | instCommit
  | adviceCommit
  | lookupPermutedInput
  | lookupPermutedTable
  | permProduct
  | lookupProduct
  | vanishCommit
  | instEval
  | adviceEval
  | fixedEval
  | vanishEval
  | permEval
  | lookupEval
  | multiopenProof
deriving DecidableEq, Repr

/-- One transcript interaction of `create_proof`: hashing the verifying key,
a common/written point, a written scalar, or a squeezed challenge. -/
inductive TEvent : Type
  | vkHash
  | commonPoint (s : Site)
  | writePoint (s : Site)
  | writeScalar (s : Site)
  | squeeze (c : Chal)
deriving DecidableEq, Repr

/-- `plonk::Error` variants reachable from `create_proof`
(`src/plonk/prover.rs`). -/
inductive PlonkError : Type
  | IncompatibleParams
  | TranscriptError
  | OpeningError
  | BoundsFailure
  | SynthesisError
deriving DecidableEq, Repr

/-- The per-proof counts that determine the shape of the `create_proof`
transcript trace.  Counts marked "modelled from the spec" belong to
collaborator code outside the sampled sources. -/
structure Shape : Type where
  /-- `pk.vk.cs.num_instance_columns`. -/
  num_instance_columns : Nat
  /-- `meta.num_advice_columns`: advice commitments written per circuit. -/
  num_advice_columns : Nat
  /-- `pk.vk.cs.lookups.len()`. -/
  num_lookups : Nat
  /-- `pk.vk.cs.permutations.len()`. -/
  num_permutations : Nat
  /-- Modelled from the spec: points written by one permutation-argument
  `commit` call — "each permutation chunk commits one running-product
  polynomial"; the chunk count is an external-collaborator detail. -/
  perm_commit_points : Nat
  /-- Modelled from the spec: commitments written by
  `vanishing::Argument::construct` ("construct the vanishing-argument
  commitment(s) to the resulting quotient polynomial"). -/
  vanish_commit_points : Nat
  /-- `meta.instance_queries.len()`: instance evaluations written per instance. -/
  num_instance_queries : Nat
  /-- `meta.advice_queries.len()`: advice evaluations written per circuit. -/
  num_advice_queries : Nat
  /-- `meta.fixed_queries.len()`: fixed evaluations written once. -/
  num_fixed_queries : Nat
  /-- Modelled from the spec: scalars written by `vanishing.evaluate`. -/
  vanish_eval_scalars : Nat
  /-- Modelled from the spec: scalars written by one permutation `evaluate`
  call (the running product opened at `x` and `omega^-1 x`). -/
  perm_eval_scalars : Nat
  /-- Modelled from the spec: events written by `multiopen::create_proof`. -/
  multiopen_events : Nat

/-- The transcript trace of `create_proof` (`src/plonk/prover.rs`
lines 29-554), on the path where every collaborator call succeeds, paired
with the result.  `instances` lists the column count of each instance
(`instance.len()` for each element of the `instances` argument);
`circuits` is `circuits.len()`.  Mirrors the source order:

* the instance-count check precedes every transcript operation;
* `vk.hash_into`; instance commitments (`common_point` per column per
  instance); advice commitments (`write_point` per advice column per
  circuit); squeeze `theta`;
* per `instance.iter().zip(advice.iter())` pair and per lookup argument,
  `commit_permuted` writes the permuted-input then the permuted-table
  commitment (two points, matching the verifier's
  `read_permuted_commitments`); squeeze `beta`; squeeze `gamma`;
* permutation running-product commitments, then lookup product commitments
  (one point per lookup, matching `read_product_commitment`); squeeze `y`;
* vanishing-argument construction; squeeze `x`;
* instance, advice and fixed evaluations; `vanishing.evaluate`; permutation
  evaluations; lookup evaluations (five scalars per lookup, matching the
  verifier's `Committed::evaluate`); `multiopen::create_proof`. -/
def createProofTrace (sh : Shape) (instances : List Nat) (circuits : Nat) :
    List TEvent × Except PlonkError Unit :=
  if instances.any (fun n => n ≠ sh.num_instance_columns) then
    ([], Except.error PlonkError.IncompatibleParams)
  else
    let pairs := instances.zip (List.range circuits)
    let instanceCommits := instances.flatMap
      (fun n => List.replicate n (TEvent.commonPoint Site.instCommit))
    let adviceCommits := (List.range circuits).flatMap
      (fun _ => List.replicate sh.num_advice_columns (TEvent.writePoint Site.adviceCommit))
    let lookupPermutedCommits := pairs.flatMap
      (fun _ => (List.range sh.num_lookups).flatMap
        (fun _ => [TEvent.writePoint Site.lookupPermutedInput,
                   TEvent.writePoint Site.lookupPermutedTable]))
    let permCommits := pairs.flatMap
      (fun _ => (List.range sh.num_permutations).flatMap
        (fun _ => List.replicate sh.perm_commit_points (TEvent.writePoint Site.permProduct)))
    let lookupProductCommits := pairs.flatMap
      (fun _ => (List.range sh.num_lookups).map (fun _ => TEvent.writePoint Site.lookupProduct))
    let vanishCommits :=
      List.replicate sh.vanish_commit_points (TEvent.writePoint Site.vanishCommit)
    let instEvals := instances.flatMap
      (fun _ => List.replicate sh.num_instance_queries (TEvent.writeScalar Site.instEval))
    let adviceEvals := (List.range circuits).flatMap
      (fun _ => List.replicate sh.num_advice_queries (TEvent.writeScalar Site.adviceEval))
    let fixedEvals := List.replicate sh.num_fixed_queries (TEvent.writeScalar Site.fixedEval)
    let vanishEvals := List.replicate sh.vanish_eval_scalars (TEvent.writeScalar Site.vanishEval)
    let permEvals := pairs.flatMap
      (fun _ => (List.range sh.num_permutations).flatMap
        (fun _ => List.replicate sh.perm_eval_scalars (TEvent.writeScalar Site.permEval)))
    let lookupEvals := pairs.flatMap
      (fun _ => (List.range sh.num_lookups).flatMap
        (fun _ => List.replicate 5 (TEvent.writeScalar Site.lookupEval)))
    let multiopen := List.replicate sh.multiopen_events (TEvent.writeScalar Site.multiopenProof)
    ([TEvent.vkHash] ++ instanceCommits ++ adviceCommits
      ++ [TEvent.squeeze Chal.theta]
      ++ lookupPermutedCommits
      ++ [TEvent.squeeze Chal.beta, TEvent.squeeze Chal.gamma]
      ++ permCommits ++ lookupProductCommits
      ++ [TEvent.squeeze Chal.y]
      ++ vanishCommits
      ++ [TEvent.squeeze Chal.x]
      ++ instEvals ++ adviceEvals ++ fixedEvals ++ vanishEvals
      ++ permEvals ++ lookupEvals ++ multiopen,
     Except.ok ())

end Prover

namespace FloorPlannerV1

/-- `Cell` (`src/circuit.rs`): a pointer to an assigned cell, carrying the
region it was assigned in, its row offset relative to that region's start,
and its column. -/
structure Cell : Type where
  region_index : Nat
  row_offset : Nat
  column : Column
deriving DecidableEq, Repr

/-- One call made by an `assign_region` closure against the
`RegionLayouter` interface implemented by `V1Region`
(`src/circuit/floor_planner/v1.rs` lines 228-299).  A typed advice/fixed
column is its index.  String annotations carry no semantics and are
omitted. -/
inductive RegionOp : Type
  | enableSelector (s : Selector) (offset : Nat)
  | assignAdvice (column : Nat) (offset : Nat)
  | assignFixed (column : Nat) (offset : Nat)
  | constrainEqual (left right : Cell)
deriving DecidableEq, Repr

/-- One call forwarded to the real assignment sink (the `Assignment`
implementation behind `V1Plan.cs`). -/
inductive SinkEvent : Type
  | enterRegion
  | exitRegion
  | enableSelector (s : Selector) (row : Nat)
  | assignAdvice (column : Nat) (row : Nat)
  | assignFixed (column : Nat) (row : Nat)
  | copy (left_column : Column) (left_row : Nat) (right_column : Column) (right_row : Nat)
deriving DecidableEq, Repr

/-- What `V1Region` forwards to the sink for one region-relative call
(`src/circuit/floor_planner/v1.rs` lines 228-299): each relative offset is
translated by `plan.regions[region_index]` (panic on an out-of-range region
index is `none`); `constrain_equal` translates each cell by the start of
the region recorded in that cell. -/
def regionForward (regions : List Nat) (region_index : Nat) :
    RegionOp → Option SinkEvent
  | .enableSelector s offset =>
      (regions[region_index]?).map (fun start => SinkEvent.enableSelector s (start + offset))
  | .assignAdvice column offset =>
      (regions[region_index]?).map (fun start => SinkEvent.assignAdvice column (start + offset))
  | .assignFixed column offset =>
      (regions[region_index]?).map (fun start => SinkEvent.assignFixed column (start + offset))
  | .constrainEqual left right => do
      let ls ← regions[left.region_index]?
      let rs ← regions[right.region_index]?
      pure (SinkEvent.copy left.column (ls + left.row_offset)
        right.column (rs + right.row_offset))

/-- Forward a closure's calls one at a time, propagating the first panic
(`none`), as the `?`-chain inside the region closure does. -/
def forwardAll (regions : List Nat) (region_index : Nat) :
    List RegionOp → Option (List SinkEvent)
  | [] => some []
  | op :: rest => do
      let event ← regionForward regions region_index op
      let events ← forwardAll regions region_index rest
      pure (event :: events)

/-- `AssignmentPass::assign_region` (`src/circuit/floor_planner/v1.rs`
lines 186-206) for the region holding counter value `region_index`: notify
`enter_region`, run the closure's calls against a `V1Region` bound to that
index, notify `exit_region`. -/
def assignRegion (regions : List Nat) (region_index : Nat) (ops : List RegionOp) :
    Option (List SinkEvent) :=
  (forwardAll regions region_index ops).map
    (fun events => [SinkEvent.enterRegion] ++ events ++ [SinkEvent.exitRegion])

/-- The assignment pass from counter value `region_index` on
(`src/circuit/floor_planner/v1.rs` lines 170-206): each `assign_region`
call takes the current counter value and increments it. -/
def assignmentPassFrom (regions : List Nat) (region_index : Nat) :
    List (List RegionOp) → Option (List SinkEvent)
  | [] => some []
  | ops :: rest => do
      let events ← assignRegion regions region_index ops
      let tail ← assignmentPassFrom regions (region_index + 1) rest
      pure (events ++ tail)

/-- The full assignment pass (`AssignmentPass::new` starts the counter
at 0): `calls` lists, in call order, the region-relative operations of each
`assign_region` closure; `regions` is `plan.regions`, the region starts
computed from the measurement pass. -/
def assignmentPass (regions : List Nat) (calls : List (List RegionOp)) :
    Option (List SinkEvent) :=
  assignmentPassFrom regions 0 calls

/-- The sink event the claim predicts for one region-relative call: absolute
row `start + offset`, where `start` is the `RegionStart` of the region the
call refers to. -/
def expectedForward (regions : List Nat) (region_index : Nat) :
    RegionOp → SinkEvent
  | .enableSelector s offset =>
      SinkEvent.enableSelector s (regions.getD region_index 0 + offset)
  | .assignAdvice column offset =>
      SinkEvent.assignAdvice column (regions.getD region_index 0 + offset)
  | .assignFixed column offset =>
      SinkEvent.assignFixed column (regions.getD region_index 0 + offset)
  | .constrainEqual left right =>
      SinkEvent.copy left.column (regions.getD left.region_index 0 + left.row_offset)
        right.column (regions.getD right.region_index 0 + right.row_offset)

/-- Every region index mentioned by an operation is within `regions`: the
enclosing region's index for offset-relative calls, and each cell's
recorded region index for `constrain_equal`. -/
def opInRange (regions : List Nat) (region_index : Nat) : RegionOp → Prop
  | .constrainEqual left right =>
      region_index < regions.length ∧ left.region_index < regions.length ∧
        right.region_index < regions.length
  | _ => region_index < regions.length

instance (regions : List Nat) (i : Nat) (op : RegionOp) :
    Decidable (opInRange regions i op) := by
  cases op <;> simp only [opInRange] <;> infer_instance

end FloorPlannerV1

/-! ## Helper lemmas -/

section Helpers

variable {F : Type} [Field F] [DecidableEq F]

/-- `Assigned::evaluate` on a fraction is `numerator * denominator⁻¹`,
using Mathlib's convention `(0 : F)⁻¹ = 0`, which coincides with the Rust
`invert().unwrap_or(zero)` behaviour. -/
lemma Assigned.evaluate_Rational (n d : F) :
    (Assigned.Rational n d).evaluate = n * d⁻¹ := by
  show (if d = 1 then n else n * (if d = 0 then 0 else d⁻¹)) = n * d⁻¹
  by_cases h1 : d = 1
  · simp [h1]
  · by_cases h0 : d = 0 <;> simp [h1, h0]

end Helpers

/-! ## Claim theorems -/

instance : Fact (Nat.Prime 5) := ⟨by norm_num⟩

/-- `cmp a b = .eq` exactly when the columns are equal. -/
lemma Column.cmp_eq_iff (a b : Column) : Column.cmp a b = Ordering.eq ↔ a = b := by
  obtain ⟨ia, ka⟩ := a
  obtain ⟨ib, kb⟩ := b
  cases ka <;> cases kb <;>
    simp [Column.cmp, compare_eq_iff_eq, Column.mk.injEq]

/-- `cmp` is antisymmetric: `a < b` exactly when `b > a`. -/
lemma Column.cmp_lt_iff_gt (a b : Column) :
    Column.cmp a b = Ordering.lt ↔ Column.cmp b a = Ordering.gt := by
  obtain ⟨ia, ka⟩ := a
  obtain ⟨ib, kb⟩ := b
  cases ka <;> cases kb <;>
    simp [Column.cmp, compare_lt_iff_lt, compare_gt_iff_gt]

/-- `cmp`'s strict part is transitive. -/
lemma Column.cmp_lt_trans (a b c : Column) (hab : Column.cmp a b = Ordering.lt)
    (hbc : Column.cmp b c = Ordering.lt) : Column.cmp a c = Ordering.lt := by
  obtain ⟨ia, ka⟩ := a
  obtain ⟨ib, kb⟩ := b
  obtain ⟨ic, kc⟩ := c
  cases ka <;> cases kb <;> cases kc <;>
    simp_all [Column.cmp, compare_lt_iff_lt] <;> omega

/-- **C5**: `Column` comparison is a total order: `cmp` is reflexive-equal,
it detects equality, it is antisymmetric and transitive, it orders kinds as
Advice < Instance < Fixed and same-kind columns by index, and sorting any
list of columns under it is deterministic (any two sorted permutations of
the same list coincide). -/
theorem column_cmp_total_order (a b c : Column) :
    (Column.cmp a a = Ordering.eq) ∧
    (Column.cmp a b = Ordering.eq ↔ a = b) ∧
    (Column.cmp a b = Ordering.lt ↔ Column.cmp b a = Ordering.gt) ∧
    (Column.cmp a b = Ordering.lt → Column.cmp b c = Ordering.lt →
      Column.cmp a c = Ordering.lt) ∧
    (a.column_type = b.column_type →
      (Column.cmp a b = Ordering.lt ↔ a.index < b.index)) ∧
    (a.column_type = Any.Advice → b.column_type = Any.Instance →
      Column.cmp a b = Ordering.lt) ∧
    (a.column_type = Any.Advice → b.column_type = Any.Fixed →
      Column.cmp a b = Ordering.lt) ∧
    (a.column_type = Any.Instance → b.column_type = Any.Fixed →
      Column.cmp a b = Ordering.lt) ∧
    (∀ l1 l2 : List Column, l1.Perm l2 →
      l1.Sorted (fun u v => Column.cmp u v ≠ Ordering.gt) →
      l2.Sorted (fun u v => Column.cmp u v ≠ Ordering.gt) → l1 = l2) := by
  refine ⟨(Column.cmp_eq_iff a a).mpr rfl, Column.cmp_eq_iff a b,
    Column.cmp_lt_iff_gt a b, Column.cmp_lt_trans a b c, ?_, ?_, ?_, ?_, ?_⟩
  · intro hk
    obtain ⟨ia, ka⟩ := a
    obtain ⟨ib, kb⟩ := b
    simp only at hk
    subst hk
    cases ka <;> simp [Column.cmp, compare_lt_iff_lt]
  · intro ha hb
    obtain ⟨ia, ka⟩ := a
    obtain ⟨ib, kb⟩ := b
    simp only at ha hb
    subst ha; subst hb
    simp [Column.cmp]
  · intro ha hb
    obtain ⟨ia, ka⟩ := a
    obtain ⟨ib, kb⟩ := b
    simp only at ha hb
    subst ha; subst hb
    simp [Column.cmp]
  · intro ha hb
    obtain ⟨ia, ka⟩ := a
    obtain ⟨ib, kb⟩ := b
    simp only at ha hb
    subst ha; subst hb
    simp [Column.cmp]
  · intro l1 l2 hperm hs1 hs2
    haveI : IsAntisymm Column (fun u v => Column.cmp u v ≠ Ordering.gt) := by
      constructor
      intro u v hu hv
      rcases h : Column.cmp u v with _ | _ | _
      · exact absurd ((Column.cmp_lt_iff_gt u v).mp h) hv
      · exact (Column.cmp_eq_iff u v).mp h
      · exact absurd h hu
    exact List.eq_of_perm_of_sorted hperm hs1 hs2

/-- Witness for **C5**: the cross-kind ordering discharged at concrete
columns. -/
theorem column_cmp_total_order_witness :
    Column.cmp ⟨3, Any.Advice⟩ ⟨1, Any.Instance⟩ = Ordering.lt :=
  (column_cmp_total_order ⟨3, Any.Advice⟩ ⟨1, Any.Instance⟩
    ⟨0, Any.Advice⟩).2.2.2.2.2.1 rfl rfl

section QueryInterning

variable {α : Type} [DecidableEq α]

open ConstraintSystem (queryIndexAux)

/-- The entry at the returned index of a query-interning step is the
queried key. -/
lemma queryIndexAux_get (qs : List α) (q : α) :
    ((queryIndexAux qs q).2)[(queryIndexAux qs q).1]? = some q := by
  induction qs with
  | nil => simp [queryIndexAux]
  | cons entry rest ih =>
      by_cases h : entry = q
      · simp [queryIndexAux, h]
      · simpa [queryIndexAux, h] using ih

/-- Re-querying the key just interned returns the same index and leaves the
table unchanged. -/
lemma queryIndexAux_self (qs : List α) (q : α) :
    queryIndexAux (queryIndexAux qs q).2 q = queryIndexAux qs q := by
  induction qs with
  | nil => simp [queryIndexAux]
  | cons entry rest ih =>
      by_cases h : entry = q
      · simp [queryIndexAux, h]
      · simp [queryIndexAux, h, ih]

/-- A key not yet in the table is appended at the end and receives the old
table length as its index. -/
lemma queryIndexAux_fresh (qs : List α) (q : α) (h : q ∉ qs) :
    queryIndexAux qs q = (qs.length, qs ++ [q]) := by
  induction qs with
  | nil => simp [queryIndexAux]
  | cons entry rest ih =>
      simp only [List.mem_cons, not_or] at h
      have hne : ¬ entry = q := fun hc => h.1 hc.symm
      simp [queryIndexAux, hne, ih h.2]

/-- Interning only ever appends to the table. -/
lemma queryIndexAux_extends (qs : List α) (q : α) :
    ∃ t, (queryIndexAux qs q).2 = qs ++ t := by
  induction qs with
  | nil => exact ⟨[q], rfl⟩
  | cons entry rest ih =>
      by_cases he : entry = q
      · exact ⟨[], by simp [queryIndexAux, he]⟩
      · obtain ⟨t, ht⟩ := ih
        exact ⟨t, by simp [queryIndexAux, he, ht]⟩

/-- Interning only ever appends: existing entries keep their positions. -/
lemma queryIndexAux_preserves (qs : List α) (q : α) (i : Nat) (x : α)
    (h : qs[i]? = some x) : ((queryIndexAux qs q).2)[i]? = some x := by
  obtain ⟨t, ht⟩ := queryIndexAux_extends qs q
  have hlt : i < qs.length := by
    by_contra hge
    rw [List.getElem?_eq_none (Nat.le_of_not_lt hge)] at h
    exact Option.noConfusion h
  rw [ht, List.getElem?_append, if_pos hlt, h]

/-- Distinct keys interned one after the other receive distinct indices. -/
lemma queryIndexAux_distinct (qs : List α) (q q' : α) (hne : q' ≠ q) :
    (queryIndexAux (queryIndexAux qs q).2 q').1 ≠ (queryIndexAux qs q).1 := by
  intro heq
  have h1 : ((queryIndexAux qs q).2)[(queryIndexAux qs q).1]? = some q :=
    queryIndexAux_get qs q
  have h2 : ((queryIndexAux (queryIndexAux qs q).2 q').2)[(queryIndexAux
      (queryIndexAux qs q).2 q').1]? = some q' :=
    queryIndexAux_get (queryIndexAux qs q).2 q'
  have h3 : ((queryIndexAux (queryIndexAux qs q).2 q').2)[(queryIndexAux qs q).1]? =
      some q :=
    queryIndexAux_preserves (queryIndexAux qs q).2 q' (queryIndexAux qs q).1 q h1
  rw [heq, h3] at h2
  exact hne (Option.some.inj h2).symm

end QueryInterning

/-- **C3**: for each column kind, querying the same `(column, rotation)`
pair via `query_<kind>_index` returns the same index each time without
growing the table; a fresh pair is appended and receives the current table
length as its index; the table entry at the returned index is the queried
pair (hence the index identifies it); and querying a distinct pair
afterwards yields a distinct index — so each distinct pair occupies at most
one query slot, with fresh indices assigned in insertion order. -/
theorem query_index_interning {F : Type} (cs : ConstraintSystem F)
    (col col' : Nat) (rot rot' : Rotation) :
    ((cs.query_advice_index col rot).2.query_advice_index col rot =
        cs.query_advice_index col rot ∧
      (cs.query_advice_index col rot).2.advice_queries[(cs.query_advice_index
          col rot).1]? = some (col, rot) ∧
      ((col, rot) ∉ cs.advice_queries →
        (cs.query_advice_index col rot).1 = cs.advice_queries.length ∧
        (cs.query_advice_index col rot).2.advice_queries =
          cs.advice_queries ++ [(col, rot)]) ∧
      ((col', rot') ≠ (col, rot) →
        ((cs.query_advice_index col rot).2.query_advice_index col' rot').1 ≠
          (cs.query_advice_index col rot).1)) ∧
    ((cs.query_fixed_index col rot).2.query_fixed_index col rot =
        cs.query_fixed_index col rot ∧
      (cs.query_fixed_index col rot).2.fixed_queries[(cs.query_fixed_index
          col rot).1]? = some (col, rot) ∧
      ((col, rot) ∉ cs.fixed_queries →
        (cs.query_fixed_index col rot).1 = cs.fixed_queries.length ∧
        (cs.query_fixed_index col rot).2.fixed_queries =
          cs.fixed_queries ++ [(col, rot)]) ∧
      ((col', rot') ≠ (col, rot) →
        ((cs.query_fixed_index col rot).2.query_fixed_index col' rot').1 ≠
          (cs.query_fixed_index col rot).1)) ∧
    ((cs.query_instance_index col rot).2.query_instance_index col rot =
        cs.query_instance_index col rot ∧
      (cs.query_instance_index col rot).2.instance_queries[(cs.query_instance_index
          col rot).1]? = some (col, rot) ∧
      ((col, rot) ∉ cs.instance_queries →
        (cs.query_instance_index col rot).1 = cs.instance_queries.length ∧
        (cs.query_instance_index col rot).2.instance_queries =
          cs.instance_queries ++ [(col, rot)]) ∧
      ((col', rot') ≠ (col, rot) →
        ((cs.query_instance_index col rot).2.query_instance_index col' rot').1 ≠
          (cs.query_instance_index col rot).1)) := by
  refine ⟨⟨?_, ?_, ?_, ?_⟩, ⟨?_, ?_, ?_, ?_⟩, ⟨?_, ?_, ?_, ?_⟩⟩
  · simp [ConstraintSystem.query_advice_index, queryIndexAux_self]
  · simpa [ConstraintSystem.query_advice_index] using
      queryIndexAux_get cs.advice_queries (col, rot)
  · intro h
    have := queryIndexAux_fresh cs.advice_queries (col, rot) h
    simp [ConstraintSystem.query_advice_index, this]
  · intro h
    simpa [ConstraintSystem.query_advice_index] using
      queryIndexAux_distinct cs.advice_queries (col, rot) (col', rot') h
  · simp [ConstraintSystem.query_fixed_index, queryIndexAux_self]
  · simpa [ConstraintSystem.query_fixed_index] using
      queryIndexAux_get cs.fixed_queries (col, rot)
  · intro h
    have := queryIndexAux_fresh cs.fixed_queries (col, rot) h
    simp [ConstraintSystem.query_fixed_index, this]
  · intro h
    simpa [ConstraintSystem.query_fixed_index] using
      queryIndexAux_distinct cs.fixed_queries (col, rot) (col', rot') h
  · simp [ConstraintSystem.query_instance_index, queryIndexAux_self]
  · simpa [ConstraintSystem.query_instance_index] using
      queryIndexAux_get cs.instance_queries (col, rot)
  · intro h
    have := queryIndexAux_fresh cs.instance_queries (col, rot) h
    simp [ConstraintSystem.query_instance_index, this]
  · intro h
    simpa [ConstraintSystem.query_instance_index] using
      queryIndexAux_distinct cs.instance_queries (col, rot) (col', rot') h

/-- Witness for **C3**: fresh insertion into the empty default system. -/
theorem query_index_interning_witness :
    ((ConstraintSystem.default (F := Unit)).query_advice_index 0 0).1 =
      (ConstraintSystem.default (F := Unit)).advice_queries.length ∧
    ((ConstraintSystem.default (F := Unit)).query_advice_index 0 0).2.advice_queries =
      (ConstraintSystem.default (F := Unit)).advice_queries ++ [(0, 0)] :=
  (query_index_interning (ConstraintSystem.default (F := Unit)) 0 1 0 0).1.2.2.1
    (by decide)

/-- The "largest element of the list, defaulting to `d` when the list is
empty" quantity named by the spec. -/
def specMaxD (l : List Nat) (d : Nat) : Nat :=
  match l with
  | [] => d
  | _ => l.foldl max 0

/-- Rust's `.iter().max().unwrap_or(d)` is `specMaxD`. -/
lemma max?_getD_eq_specMaxD (l : List Nat) (d : Nat) :
    (l.max?).getD d = specMaxD l d := by
  cases l with
  | nil => rfl
  | cons x xs =>
      show xs.foldl max x = (x :: xs).foldl max 0
      simp [List.foldl_cons, Nat.zero_max]

/-- **C6**: `ConstraintSystem::degree()` is the maximum of three
quantities — the largest permutation-argument required degree (default 1),
the largest lookup-argument required degree (default 1), and the largest
gate-polynomial degree (default 0) — so a constraint system with no
arguments and no gates has degree 1. -/
theorem constraint_system_degree_spec {F : Type} (cs : ConstraintSystem F)
    (permRequiredDegree : PermutationArgument → Nat)
    (lookupRequiredDegree : Lookup.Argument F → Nat) :
    cs.degree permRequiredDegree lookupRequiredDegree =
      max (max (specMaxD (cs.permutations.map permRequiredDegree) 1)
               (specMaxD (cs.lookups.map lookupRequiredDegree) 1))
          (specMaxD (cs.gates.flatMap (fun gate => gate.polys.map Expression.degree)) 0) ∧
    (cs.permutations = [] → cs.lookups = [] → cs.gates = [] →
      cs.degree permRequiredDegree lookupRequiredDegree = 1) := by
  constructor
  · simp [ConstraintSystem.degree, max?_getD_eq_specMaxD]
  · intro h1 h2 h3
    simp [ConstraintSystem.degree, h1, h2, h3]

/-- Degree function used by the **C6** witness (the permutation
`required_degree` collaborator, instantiated constantly). -/
def zeroPermDegree : PermutationArgument → Nat := fun _ => 0

/-- Degree function used by the **C6** witness (the lookup
`required_degree` collaborator, instantiated constantly). -/
def zeroLookupDegree : Lookup.Argument Unit → Nat := fun _ => 0

/-- Witness for **C6**: the empty default constraint system has degree 1. -/
theorem constraint_system_degree_spec_witness :
    (ConstraintSystem.default (F := Unit)).degree zeroPermDegree zeroLookupDegree = 1 :=
  (constraint_system_degree_spec (ConstraintSystem.default (F := Unit))
    zeroPermDegree zeroLookupDegree).2 rfl rfl rfl

/-- **C9**: `create_gate` aborts (panics) exactly when the constraints
closure yields no constraints; otherwise it appends exactly one `Gate`
carrying the given name, the constraints' names and polynomials in order,
and the selectors and cells recorded while the closure queried the
`VirtualCells` context. -/
theorem create_gate_spec {F : Type} (cs : ConstraintSystem F) (name : String)
    (constraints : ConstraintSystem F × ConstraintSystem.VirtualCellsState →
      (ConstraintSystem F × ConstraintSystem.VirtualCellsState) × List (GateConstraint F)) :
    ((constraints (cs, ⟨[], []⟩)).2 = [] → cs.create_gate name constraints = none) ∧
    ((constraints (cs, ⟨[], []⟩)).2 ≠ [] →
      cs.create_gate name constraints =
        some { (constraints (cs, ⟨[], []⟩)).1.1 with
          gates := (constraints (cs, ⟨[], []⟩)).1.1.gates ++
            [{ name := name
               constraint_names := (constraints (cs, ⟨[], []⟩)).2.map (fun c => c.name)
               polys := (constraints (cs, ⟨[], []⟩)).2.map (fun c => c.poly)
               queried_selectors := (constraints (cs, ⟨[], []⟩)).1.2.queried_selectors
               queried_cells := (constraints (cs, ⟨[], []⟩)).1.2.queried_cells }] }) := by
  constructor
  · intro h
    simp [ConstraintSystem.create_gate, h]
  · intro h
    simp [ConstraintSystem.create_gate, h]

/-- The constraints closure used by the **C9** witness: no queries, one
constraint. -/
def exampleGateConstraints :
    ConstraintSystem Unit × ConstraintSystem.VirtualCellsState →
      (ConstraintSystem Unit × ConstraintSystem.VirtualCellsState) ×
        List (GateConstraint Unit) :=
  fun p => (p, [⟨"c0", Expression.Constant ()⟩])

/-- Witness for **C9**: one gate appended to the default system. -/
theorem create_gate_spec_witness :
    (ConstraintSystem.default (F := Unit)).create_gate ("g") exampleGateConstraints =
      some { ConstraintSystem.default (F := Unit) with
        gates := [⟨"g", ["c0"], [Expression.Constant ()], [], []⟩] } := by
  have h := (create_gate_spec (ConstraintSystem.default (F := Unit)) ("g")
    exampleGateConstraints).2 (by simp [exampleGateConstraints])
  simpa [exampleGateConstraints, ConstraintSystem.default] using h

section FloorPlanner

open FloorPlannerV1

/-- An in-range region-relative call forwards exactly the claimed absolute
rows. -/
lemma regionForward_eq_expected (regions : List Nat) (i : Nat) (op : RegionOp)
    (h : opInRange regions i op) :
    regionForward regions i op = some (expectedForward regions i op) := by
  cases op with
  | enableSelector s o =>
      simp only [opInRange] at h
      have hg : regions[i]? = some regions[i] := List.getElem?_eq_getElem h
      simp [regionForward, expectedForward, hg, List.getD_eq_getElem?_getD]
  | assignAdvice c o =>
      simp only [opInRange] at h
      have hg : regions[i]? = some regions[i] := List.getElem?_eq_getElem h
      simp [regionForward, expectedForward, hg, List.getD_eq_getElem?_getD]
  | assignFixed c o =>
      simp only [opInRange] at h
      have hg : regions[i]? = some regions[i] := List.getElem?_eq_getElem h
      simp [regionForward, expectedForward, hg, List.getD_eq_getElem?_getD]
  | constrainEqual l r =>
      obtain ⟨-, hl, hr⟩ := h
      have hgl : regions[l.region_index]? = some regions[l.region_index] :=
        List.getElem?_eq_getElem hl
      have hgr : regions[r.region_index]? = some regions[r.region_index] :=
        List.getElem?_eq_getElem hr
      simp [regionForward, expectedForward, hgl, hgr, List.getD_eq_getElem?_getD]

/-- One `assign_region` call with in-range operations: `enter_region`, the
translated operations in order, `exit_region`. -/
lemma assignRegion_eq (regions : List Nat) (i : Nat) (ops : List RegionOp)
    (h : ∀ op ∈ ops, opInRange regions i op) :
    assignRegion regions i ops =
      some ([SinkEvent.enterRegion] ++ ops.map (expectedForward regions i)
        ++ [SinkEvent.exitRegion]) := by
  have hm : forwardAll regions i ops = some (ops.map (expectedForward regions i)) := by
    induction ops with
    | nil => rfl
    | cons op rest ih =>
        have h0 := regionForward_eq_expected regions i op (h op (List.mem_cons_self op rest))
        have ih' := ih (fun o ho => h o (List.mem_cons_of_mem op ho))
        simp [forwardAll, h0, ih']
  simp [assignRegion, hm]

/-- The assignment pass from counter value `k` on, against the suffix of
calls numbered from `k`. -/
lemma assignmentPassFrom_spec (regions : List Nat) (k : Nat)
    (calls : List (List RegionOp))
    (h : ∀ pair ∈ calls.enumFrom k, ∀ op ∈ pair.2, opInRange regions pair.1 op) :
    assignmentPassFrom regions k calls =
      some (((calls.enumFrom k).map (fun pair =>
        [SinkEvent.enterRegion] ++ pair.2.map (expectedForward regions pair.1)
          ++ [SinkEvent.exitRegion])).flatten) := by
  induction calls generalizing k with
  | nil => rfl
  | cons ops rest ih =>
      have h0 : ∀ op ∈ ops, opInRange regions k op :=
        h (k, ops) (by simp [List.enumFrom])
      have h1 : ∀ pair ∈ rest.enumFrom (k + 1), ∀ op ∈ pair.2,
          opInRange regions pair.1 op :=
        fun pair hp => h pair (by simp [List.enumFrom, hp])
      simp [assignmentPassFrom, assignRegion_eq regions k ops h0, ih (k + 1) h1,
        List.enumFrom]

/-- **C7**: in the V1 floor planner's assignment pass, the `i`-th
`assign_region` call (in call order, from 0) is bound to the `i`-th
`RegionStart` from the measurement pass; every `enable_selector`,
`assign_advice`, `assign_fixed` and `constrain_equal` call inside it
forwards to the assignment sink the absolute row equal to the referenced
region's start plus the relative offset, with `enter_region`/`exit_region`
notified around each region's closure. -/
theorem v1_assignment_pass_spec (regions : List Nat) (calls : List (List RegionOp))
    (h : ∀ pair ∈ calls.enum, ∀ op ∈ pair.2, opInRange regions pair.1 op) :
    assignmentPass regions calls =
      some ((calls.enum.map (fun pair =>
        [SinkEvent.enterRegion] ++ pair.2.map (expectedForward regions pair.1)
          ++ [SinkEvent.exitRegion])).flatten) :=
  assignmentPassFrom_spec regions 0 calls h

/-- Witness for **C7**: two regions with starts 5 and 10; offsets are
translated by the matching start, including a cross-region equality
constraint. -/
theorem v1_assignment_pass_spec_witness :
    assignmentPass [5, 10]
      [[RegionOp.assignAdvice 0 0, RegionOp.enableSelector 1 1],
       [RegionOp.assignFixed 2 3,
        RegionOp.constrainEqual ⟨0, 0, ⟨0, Any.Advice⟩⟩ ⟨1, 3, ⟨2, Any.Fixed⟩⟩]] =
      some [SinkEvent.enterRegion,
        SinkEvent.assignAdvice 0 5, SinkEvent.enableSelector 1 6,
        SinkEvent.exitRegion,
        SinkEvent.enterRegion,
        SinkEvent.assignFixed 2 13,
        SinkEvent.copy ⟨0, Any.Advice⟩ 5 ⟨2, Any.Fixed⟩ 13,
        SinkEvent.exitRegion] := by
  have h := v1_assignment_pass_spec [5, 10]
    [[RegionOp.assignAdvice 0 0, RegionOp.enableSelector 1 1],
     [RegionOp.assignFixed 2 3,
      RegionOp.constrainEqual ⟨0, 0, ⟨0, Any.Advice⟩⟩ ⟨1, 3, ⟨2, Any.Fixed⟩⟩]]
    (by decide)
  simpa [expectedForward, List.enum, List.enumFrom] using h

end FloorPlanner

section ProverTrace

open Prover

/-- Mapping every element to the same list concatenates that many copies. -/
lemma flatMap_const {α β : Type} (l : List α) (xs : List β) :
    l.flatMap (fun _ => xs) = (List.replicate l.length xs).flatten := by
  induction l with
  | nil => rfl
  | cons a rest ih => simp [ih, List.replicate_succ]

/-- Flattening a replicated replicate multiplies the counts. -/
lemma flatten_replicate_replicate {β : Type} (n k : Nat) (a : β) :
    (List.replicate n (List.replicate k a)).flatten = List.replicate (n * k) a := by
  induction n with
  | zero => simp
  | succ m ih =>
      simp only [List.replicate_succ, List.flatten_cons, ih, ← List.replicate_add,
        Nat.succ_mul]
      congr 1
      omega

/-- Flattening a replicated flattened replicate multiplies the outer
counts. -/
lemma flatten_replicate_flatten {β : Type} (m L : Nat) (xs : List β) :
    (List.replicate m ((List.replicate L xs).flatten)).flatten =
      (List.replicate (m * L) xs).flatten := by
  induction m with
  | zero => simp
  | succ p ih =>
      simp only [List.replicate_succ, List.flatten_cons, ih, ← List.flatten_append,
        ← List.replicate_add, Nat.succ_mul]
      congr 2
      omega

/-- Mapping every element to the same value replicates it. -/
lemma map_const_replicate {α β : Type} (l : List α) (e : β) :
    l.map (fun _ => e) = List.replicate l.length e := by
  induction l with
  | nil => rfl
  | cons a rest ih => simp [ih, List.replicate_succ]

/-- When every element equals `k`, a flatMap of per-element replicates is a
single replicate of the summed count. -/
lemma flatMap_replicate_eq {β : Type} (instances : List Nat) (k : Nat) (x : β)
    (h : ∀ n ∈ instances, n = k) :
    instances.flatMap (fun n => List.replicate n x) =
      List.replicate (instances.length * k) x := by
  induction instances with
  | nil => simp
  | cons n rest ih =>
      have hn : n = k := h n (List.mem_cons_self n rest)
      have ih' := ih (fun a ha => h a (List.mem_cons_of_mem n ha))
      simp only [List.flatMap_cons, ih', hn, ← List.replicate_add, List.length_cons,
        Nat.succ_mul]
      congr 1
      omega

/-- **C2**: on the success path of `create_proof` (every instance matching
the constraint system), the transcript challenges are squeezed in exactly
this order: `theta` after all instance and advice commitments; then the
lookup permuted-input/permuted-table commitments; then `beta`, then
`gamma`; then the permutation-argument running products, followed by the
lookup running products; then `y`; then the vanishing-argument
construction; then `x`. -/
theorem create_proof_transcript_order (sh : Shape) (instances : List Nat)
    (circuits : Nat) (h : ∀ n ∈ instances, n = sh.num_instance_columns) :
    createProofTrace sh instances circuits =
      ([TEvent.vkHash]
        ++ List.replicate (instances.length * sh.num_instance_columns)
            (TEvent.commonPoint Site.instCommit)
        ++ List.replicate (circuits * sh.num_advice_columns)
            (TEvent.writePoint Site.adviceCommit)
        ++ [TEvent.squeeze Chal.theta]
        ++ (List.replicate (min instances.length circuits * sh.num_lookups)
            [TEvent.writePoint Site.lookupPermutedInput,
             TEvent.writePoint Site.lookupPermutedTable]).flatten
        ++ [TEvent.squeeze Chal.beta, TEvent.squeeze Chal.gamma]
        ++ List.replicate
            (min instances.length circuits *
              (sh.num_permutations * sh.perm_commit_points))
            (TEvent.writePoint Site.permProduct)
        ++ List.replicate (min instances.length circuits * sh.num_lookups)
            (TEvent.writePoint Site.lookupProduct)
        ++ [TEvent.squeeze Chal.y]
        ++ List.replicate sh.vanish_commit_points (TEvent.writePoint Site.vanishCommit)
        ++ [TEvent.squeeze Chal.x]
        ++ List.replicate (instances.length * sh.num_instance_queries)
            (TEvent.writeScalar Site.instEval)
        ++ List.replicate (circuits * sh.num_advice_queries)
            (TEvent.writeScalar Site.adviceEval)
        ++ List.replicate sh.num_fixed_queries (TEvent.writeScalar Site.fixedEval)
        ++ List.replicate sh.vanish_eval_scalars (TEvent.writeScalar Site.vanishEval)
        ++ List.replicate
            (min instances.length circuits *
              (sh.num_permutations * sh.perm_eval_scalars))
            (TEvent.writeScalar Site.permEval)
        ++ List.replicate (min instances.length circuits * (sh.num_lookups * 5))
            (TEvent.writeScalar Site.lookupEval)
        ++ List.replicate sh.multiopen_events (TEvent.writeScalar Site.multiopenProof),
       Except.ok ()) := by
  have hcond : instances.any (fun n => n ≠ sh.num_instance_columns) = false := by
    simp only [List.any_eq_false, decide_eq_false_iff_not, not_not]
    exact fun n hn => by simpa using h n hn
  have e1 : instances.flatMap
      (fun n => List.replicate n (TEvent.commonPoint Site.instCommit)) =
      List.replicate (instances.length * sh.num_instance_columns)
        (TEvent.commonPoint Site.instCommit) :=
    flatMap_replicate_eq instances sh.num_instance_columns _ h
  simp only [createProofTrace, hcond, Bool.false_eq_true, if_false, e1,
    map_const_replicate, flatMap_const, List.length_range, List.length_zip,
    flatten_replicate_replicate, flatten_replicate_flatten, List.append_assoc]

/-- Witness for **C2** at concrete counts. -/
theorem create_proof_transcript_order_witness :
    createProofTrace
      { num_instance_columns := 1, num_advice_columns := 1, num_lookups := 1,
        num_permutations := 1, perm_commit_points := 1, vanish_commit_points := 1,
        num_instance_queries := 1, num_advice_queries := 1, num_fixed_queries := 1,
        vanish_eval_scalars := 1, perm_eval_scalars := 2, multiopen_events := 1 }
      [1] 1 =
      ([TEvent.vkHash]
        ++ List.replicate 1 (TEvent.commonPoint Site.instCommit)
        ++ List.replicate 1 (TEvent.writePoint Site.adviceCommit)
        ++ [TEvent.squeeze Chal.theta]
        ++ (List.replicate 1
            [TEvent.writePoint Site.lookupPermutedInput,
             TEvent.writePoint Site.lookupPermutedTable]).flatten
        ++ [TEvent.squeeze Chal.beta, TEvent.squeeze Chal.gamma]
        ++ List.replicate 1 (TEvent.writePoint Site.permProduct)
        ++ List.replicate 1 (TEvent.writePoint Site.lookupProduct)
        ++ [TEvent.squeeze Chal.y]
        ++ List.replicate 1 (TEvent.writePoint Site.vanishCommit)
        ++ [TEvent.squeeze Chal.x]
        ++ List.replicate 1 (TEvent.writeScalar Site.instEval)
        ++ List.replicate 1 (TEvent.writeScalar Site.adviceEval)
        ++ List.replicate 1 (TEvent.writeScalar Site.fixedEval)
        ++ List.replicate 1 (TEvent.writeScalar Site.vanishEval)
        ++ List.replicate 2 (TEvent.writeScalar Site.permEval)
        ++ List.replicate 5 (TEvent.writeScalar Site.lookupEval)
        ++ List.replicate 1 (TEvent.writeScalar Site.multiopenProof),
       Except.ok ()) := by
  have h := create_proof_transcript_order
    { num_instance_columns := 1, num_advice_columns := 1, num_lookups := 1,
      num_permutations := 1, perm_commit_points := 1, vanish_commit_points := 1,
      num_instance_queries := 1, num_advice_queries := 1, num_fixed_queries := 1,
      vanish_eval_scalars := 1, perm_eval_scalars := 2, multiopen_events := 1 }
    [1] 1 (by decide)
  simpa using h

/-- **C8**: if any element of `instances` has a length different from the
constraint system's `num_instance_columns`, `create_proof` returns
`Error::IncompatibleParams` before performing any transcript operation: the
emitted trace is empty, so no partial proof is written. -/
theorem create_proof_incompatible_params (sh : Shape) (instances : List Nat)
    (circuits : Nat) (h : ∃ n ∈ instances, n ≠ sh.num_instance_columns) :
    createProofTrace sh instances circuits =
      ([], Except.error PlonkError.IncompatibleParams) := by
  have hcond : instances.any (fun n => n ≠ sh.num_instance_columns) = true := by
    obtain ⟨n, hn, hne⟩ := h
    simp only [List.any_eq_true]
    exact ⟨n, hn, by simpa using hne⟩
  unfold createProofTrace
  rw [hcond]
  simp

/-- Witness for **C8**: a two-column instance against a one-column system. -/
theorem create_proof_incompatible_params_witness :
    createProofTrace
      { num_instance_columns := 1, num_advice_columns := 1, num_lookups := 0,
        num_permutations := 0, perm_commit_points := 0, vanish_commit_points := 0,
        num_instance_queries := 0, num_advice_queries := 0, num_fixed_queries := 0,
        vanish_eval_scalars := 0, perm_eval_scalars := 0, multiopen_events := 0 }
      [2] 1 = ([], Except.error PlonkError.IncompatibleParams) :=
  create_proof_incompatible_params _ [2] 1 ⟨2, by simp, by decide⟩

end ProverTrace

/-- **C1**: for every lookup argument, the verifier's
`Evaluated::expressions` yields exactly four scalars, in order:
(1) `l_0 * (1 - z)`;
(2) `z * (a' + beta) * (s' + gamma)
     - z_prev * (compress inputs + beta) * (compress tables + gamma)`,
where `compress` left-folds the expressions' field evaluations with
`fold(acc, e) = acc * theta + e` starting from zero;
(3) `l_0 * (a' - s')`;
(4) `(a' - s') * (a' - a'_prev)`;
with `z, a', s'` the product / permuted-input / permuted-table evaluations
at `x` and `z_prev, a'_prev` their evaluations at `omega⁻¹ x`. -/
theorem lookup_verifier_expressions_four_scalars {F : Type} [Field F]
    (e : Lookup.Evaluated F) (l_0 theta beta gamma : F) (argument : Lookup.Argument F)
    (advice_evals fixed_evals instance_evals : Nat → F) :
    e.expressions l_0 argument theta beta gamma advice_evals fixed_evals instance_evals =
      [l_0 * (1 - e.product_eval),
       e.product_eval * (e.permuted_input_eval + beta) * (e.permuted_table_eval + gamma)
         - e.product_inv_eval
           * (argument.input_expressions.foldl
               (fun acc ex => acc * theta + ex.evalF fixed_evals advice_evals instance_evals) 0
              + beta)
           * (argument.table_expressions.foldl
               (fun acc ex => acc * theta + ex.evalF fixed_evals advice_evals instance_evals) 0
              + gamma),
       l_0 * (e.permuted_input_eval - e.permuted_table_eval),
       (e.permuted_input_eval - e.permuted_table_eval)
         * (e.permuted_input_eval - e.permuted_input_inv_eval)] := by
  simp only [Lookup.Evaluated.expressions, Expression.evalF, List.foldl_map]

/-- **C4**: adding two `Rational` values and evaluating agrees with adding
the evaluations whenever both denominators are nonzero; and evaluating a
`Rational` with zero denominator yields the field zero (never a failure). -/
theorem assigned_rational_add_evaluate {F : Type} [Field F] [DecidableEq F]
    (n1 d1 n2 d2 n : F) :
    (d1 ≠ 0 → d2 ≠ 0 →
      ((Assigned.Rational n1 d1).add (Assigned.Rational n2 d2)).evaluate =
        (Assigned.Rational n1 d1).evaluate + (Assigned.Rational n2 d2).evaluate) ∧
    (Assigned.Rational n (0 : F)).evaluate = 0 := by
  constructor
  · intro h1 h2
    show (Assigned.Rational (n1 * d2 + d1 * n2) (d1 * d2)).evaluate = _
    rw [Assigned.evaluate_Rational, Assigned.evaluate_Rational, Assigned.evaluate_Rational]
    field_simp
    ring
  · rw [Assigned.evaluate_Rational]
    simp

/-- Witness for **C4** over `ZMod 5`. -/
theorem assigned_rational_add_evaluate_witness :
    ((Assigned.Rational (1 : ZMod 5) 2).add (Assigned.Rational 3 4)).evaluate =
      (Assigned.Rational (1 : ZMod 5) 2).evaluate + (Assigned.Rational 3 4).evaluate :=
  (assigned_rational_add_evaluate 1 2 3 4 0).1 (by decide) (by decide)

/-- **C10**: for every `Assigned` value `a`, `evaluate (invert a)` is the
multiplicative inverse of `evaluate a` when the latter is nonzero, and the
field zero when `evaluate a` is zero (covering `Zero`, `Trivial 0` and
`Rational n 0`); `invert` itself never inverts a field element. -/
theorem assigned_invert_evaluate {F : Type} [Field F] [DecidableEq F] (a : Assigned F) :
    (a.evaluate ≠ 0 → a.invert.evaluate = a.evaluate⁻¹) ∧
    (a.evaluate = 0 → a.invert.evaluate = 0) := by
  have key : a.invert.evaluate = a.evaluate⁻¹ := by
    cases a with
    | Zero => simp [Assigned.invert, Assigned.evaluate]
    | Trivial x =>
        show (Assigned.Rational 1 x).evaluate = x⁻¹
        rw [Assigned.evaluate_Rational]; ring
    | Rational n d =>
        show (Assigned.Rational d n).evaluate = (Assigned.Rational n d).evaluate⁻¹
        rw [Assigned.evaluate_Rational, Assigned.evaluate_Rational, mul_inv_rev, inv_inv]
  exact ⟨fun _ => key, fun h => by rw [key, h, inv_zero]⟩

/-- Witness for **C10** over `ZMod 5`: both branches exercised. -/
theorem assigned_invert_evaluate_witness :
    ((Assigned.Rational (2 : ZMod 5) 1).invert.evaluate =
      ((Assigned.Rational (2 : ZMod 5) 1).evaluate)⁻¹) ∧
    ((Assigned.Rational (2 : ZMod 5) 0).invert.evaluate = 0) :=
  ⟨(assigned_invert_evaluate (Assigned.Rational (2 : ZMod 5) 1)).1 (by decide),
   (assigned_invert_evaluate (Assigned.Rational (2 : ZMod 5) 0)).2 (by decide)⟩

end Halo2
